import Mathlib

/-!
Verification of the file-organization core of the repository
(02_watchdog_descargas.py and 03_typer_organizador.py).

Shallow embedding conventions:
  - A file name is decomposed, as pathlib does, into `stem` and `sufijo`
    (the last-dot extension segment, including its leading dot, or "" when
    the name has no extension); the full name is `stem ++ sufijo`.
  - A directory path is a `Ruta`, a list of path components relative to the
    scanned base directory (`[]` is the base directory itself).
  - The filesystem is a list of `(directory, file)` pairs plus the set of
    existing directories and the content of the log file.
  - `shutil.move` failures (permission denied, ...) are modelled by a
    per-file oracle `falla`: the move raises exactly when `falla` is true.
  - File modification timestamps are modelled by their calendar date
    (`Fecha`), the only part of the timestamp the code consumes.
-/

/-- A calendar date as produced by
`datetime.fromtimestamp(st_mtime).date()`: `month` ranges over 1..12 and
`day` over 1..31 for dates coming from `datetime`. -/
structure Fecha where
  year : Nat
  month : Nat
  day : Nat
deriving DecidableEq

/-- A file as observed by the pipeline: pathlib stem, pathlib suffix
(`sufijo`, with its leading dot, or empty), modification date, and the
I/O oracle `falla` telling whether `shutil.move` would raise on it. -/
structure Archivo where
  stem : String
  sufijo : String
  fecha : Fecha
  falla : Bool
deriving DecidableEq

/-- pathlib's `name`: the stem followed by the suffix. -/
def nombre (a : Archivo) : String := a.stem ++ a.sufijo

/-- A directory path, as components relative to the scanned base folder. -/
abbrev Ruta := List String

/-- Python's `str.lower()` on extension strings: lowercase every character
(on the ASCII extensions involved this coincides with Python's Unicode
lowercasing). -/
def minusculas (s : String) : String := ⟨s.data.map Char.toLower⟩

/-- `EXTENSIONES_TEMPORALES` — identical in both scripts. -/
def EXTENSIONES_TEMPORALES : List String := [".crdownload", ".part", ".tmp"]

/-- `MESES_ES` — the fixed localized month-name table, identical in both
scripts. -/
def MESES_ES : List String :=
  ["enero", "febrero", "marzo", "abril", "mayo", "junio",
   "julio", "agosto", "septiembre", "octubre", "noviembre", "diciembre"]

namespace Descargas

/-! Extension sets of `02_watchdog_descargas.py` (lines 36-58). -/

def EXT_DOCS : List String :=
  [".pdf", ".txt", ".doc", ".docx", ".ppt", ".pptx", ".vtt", ".odt",
   ".rtf", ".epub", ".md", ".srt"]

def EXT_IMG : List String :=
  [".jpg", ".jpeg", ".png", ".gif", ".bmp", ".tiff", ".webp"]

def EXT_VIDEO : List String :=
  [".mp4", ".mkv", ".avi", ".mov", ".wmv", ".flv", ".webm"]

def EXT_COMP : List String :=
  [".zip", ".rar", ".7z", ".gz", ".tar", ".bz2", ".xz"]

def EXT_DATOS : List String :=
  [".xls", ".xlsx", ".xlsm", ".ods", ".csv", ".tsv", ".sql", ".sqlite",
   ".db", ".mdb", ".accdb", ".dump", ".bak", ".parquet", ".feather", ".orc"]

def EXT_SCRIPTS : List String :=
  [".py", ".ipynb", ".js", ".ts", ".json", ".rs", ".c", ".cpp", ".cxx",
   ".h", ".hpp", ".html", ".htm", ".css", ".sh", ".bat", ".ps1"]

/-- `categoria_para_extension` of `02_watchdog_descargas.py` (lines 77-102). -/
def categoria_para_extension (sufijo : String) : String :=
  let s := minusculas sufijo
  if s ∈ EXT_DATOS then "datos"
  else if s ∈ EXT_DOCS then "documentos"
  else if s ∈ EXT_IMG then "imagenes"
  else if s ∈ EXT_VIDEO then "videos"
  else if s ∈ EXT_COMP then "comprimidos"
  else if s ∈ EXT_SCRIPTS then "scripts"
  else "otros"

end Descargas

namespace Organizador

/-! Extension sets of `03_typer_organizador.py` (lines 25-68). -/

def EXT_DOCS : List String :=
  [".pdf", ".txt", ".doc", ".docx", ".ppt", ".pptx"]

def EXT_IMG : List String :=
  [".jpg", ".jpeg", ".png", ".gif", ".bmp", ".tiff", ".webp"]

def EXT_VIDEO : List String :=
  [".mp4", ".mkv", ".avi", ".mov", ".wmv", ".flv", ".webm"]

def EXT_COMP : List String :=
  [".zip", ".rar", ".7z", ".gz", ".tar", ".bz2", ".xz"]

def EXT_DATOS : List String :=
  [".xls", ".xlsx", ".xlsm", ".ods", ".csv", ".tsv", ".sql", ".sqlite",
   ".db", ".mdb", ".accdb", ".dump", ".bak", ".parquet", ".feather", ".orc"]

def EXT_SCRIPTS : List String :=
  [".py", ".ipynb", ".js", ".ts", ".rs", ".c", ".cpp", ".cxx",
   ".h", ".hpp", ".html", ".htm", ".css", ".sh", ".bat", ".ps1"]

/-- `categoria_para_extension` of `03_typer_organizador.py` (lines 86-111). -/
def categoria_para_extension (sufijo : String) : String :=
  let s := minusculas sufijo
  if s ∈ EXT_DATOS then "datos"
  else if s ∈ EXT_DOCS then "documentos"
  else if s ∈ EXT_IMG then "imagenes"
  else if s ∈ EXT_VIDEO then "videos"
  else if s ∈ EXT_COMP then "comprimidos"
  else if s ∈ EXT_SCRIPTS then "scripts"
  else "otros"

end Organizador

/-! ### Decimal representation of counters

The collision loop builds names with Python's `f"{stem}_{contador}{suffix}"`,
whose `{contador}` part is the decimal representation `Nat.repr contador`.
The lemmas below characterize `Nat.repr` through the recursive digit list
`decChars` and prove it injective, which drives the termination argument
of the collision loop. -/

/-- Decimal digit characters of `n`, most significant first. -/
def decChars (n : Nat) : List Char :=
  if _ : n < 10 then [Nat.digitChar n]
  else decChars (n / 10) ++ [Nat.digitChar (n % 10)]
decreasing_by exact Nat.div_lt_self (by omega) (by omega)

/-! ### The collision-suffix loop

Both scripts run the identical loop (02: lines 207-211, 03: lines 206-210):

    contador = 1
    while destino.exists():
        destino = carpeta_destino / f"{stem}_{contador}{suffix}"
        contador += 1
-/

/-- The candidate name `f"{stem}_{contador}{suffix}"` tried at counter `k`. -/
def candidato (a : Archivo) (k : Nat) : String :=
  a.stem ++ "_" ++ Nat.repr k ++ a.sufijo

/-- The file record after renaming to the candidate of counter `k`; its
pathlib stem grows by `_k` while the suffix stays (pathlib decomposes
`stem_k ++ suffix` this way again, the suffix being a last-dot segment). -/
def conSufijoNum (a : Archivo) (k : Nat) : Archivo :=
  { a with stem := a.stem ++ "_" ++ Nat.repr k }

/-- The `while destino.exists()` loop: `actual` is the current candidate
record, `contador` the counter, `fuel` an iteration bound (shown always
sufficient below). Returns the first candidate whose name is free. -/
def buscarLibre (nombres : List String) (a : Archivo) :
    Nat → Nat → Archivo → Option Archivo
  | _, 0, _ => none
  | contador, fuel+1, actual =>
    if nombre actual ∈ nombres then
      buscarLibre nombres a (contador + 1) fuel (conSufijoNum a contador)
    else some actual

/-- Collision resolution against the names `nombres` already present in the
destination directory: the loop of the source, started at the original
name with counter 1.  The fuel `nombres.length + 2` always suffices
(`buscarLibre_encuentra`), so the `none` fallback is never taken. -/
def resolver (nombres : List String) (a : Archivo) : Archivo :=
  match buscarLibre nombres a 1 (nombres.length + 2) a with
  | some a' => a'
  | none => a

/-! ### Destination planner -/

namespace Organizador

/-- `destino_para_archivo` of `03_typer_organizador.py` (lines 131-153);
the result is the destination directory as a path relative to
`carpeta_base` (the scanned base folder). -/
def destino_para_archivo (archivo : Archivo) : Ruta :=
  let sufijo := minusculas archivo.sufijo
  let categoria := categoria_para_extension sufijo
  let anio := Nat.repr archivo.fecha.year
  let nombre_mes := MESES_ES.getD (archivo.fecha.month - 1) ""
  let quincena := if archivo.fecha.day ≤ 15 then "1-15" else "16-31"
  [categoria, anio, nombre_mes, quincena]

end Organizador

namespace Descargas

/-- The destination-directory computation inlined in `mover_y_organizar`
of `02_watchdog_descargas.py` (lines 190-202), relative to
`CARPETA_ORDENADA` (the Downloads folder). -/
def carpeta_destino (archivo : Archivo) : Ruta :=
  let sufijo := minusculas archivo.sufijo
  let categoria := categoria_para_extension sufijo
  let anio := Nat.repr archivo.fecha.year
  let nombre_mes := MESES_ES.getD (archivo.fecha.month - 1) ""
  let quincena := if archivo.fecha.day ≤ 15 then "1-15" else "16-31"
  [categoria, anio, nombre_mes, quincena]

end Descargas

/-! ### C9: the two classifiers are not extensionally equal -/

/-- The extensions known only to the watch-mode classifier: the watchdog
script's `EXT_DOCS` has six extra entries and its `EXT_SCRIPTS` also
lists `.json`; the Typer script lacks all seven. -/
def extensionesSoloWatchdog : List String :=
  [".vtt", ".odt", ".rtf", ".epub", ".md", ".srt", ".json"]

/-! ### Filesystem state

Both scripts mutate the same kind of state: the set of files (each at a
directory, relative to the scanned base folder — `[]` is the base
itself), the set of existing directories, and the text lines of the log
file. -/

structure Estado where
  contenido : List (Ruta × Archivo)
  dirs : List Ruta
  log : List String
deriving DecidableEq

/-- Names of the entries currently in directory `d` (what the
`destino.exists()` checks of the collision loop can observe there). -/
def nombresEn (contenido : List (Ruta × Archivo)) (d : Ruta) : List String :=
  (contenido.filter (fun p => decide (p.1 = d))).map (fun p => nombre p.2)

/-- `carpeta_destino.mkdir(parents=True, exist_ok=True)`: idempotent lazy
directory creation. -/
def mkdir (d : Ruta) (e : Estado) : Estado :=
  if d ∈ e.dirs then e else { e with dirs := e.dirs ++ [d] }

/-- The files currently sitting at the scanned base folder itself, in
listing order (what `iterdir` shows, directories excluded). -/
def raiz (e : Estado) : List Archivo :=
  (e.contenido.filter (fun p => decide (p.1 = ([] : Ruta)))).map (fun p => p.2)

namespace Descargas

/-- The file name of `FICHERO_LOG`, which lives directly in the scanned
Downloads folder (02, line 29). -/
def FICHERO_LOG : String := "_watchdog_descargas.log"

/-- `escribir_log` (02, lines 105-120): appends a `[timestamp] mensaje`
line; the timestamp prefix is irrelevant to every claim, so the line is
modelled by its message. Logging errors are swallowed by the source, so
in the model the append always succeeds. -/
def escribir_log (mensaje : String) (e : Estado) : Estado :=
  { e with log := e.log ++ [mensaje] }

/-- `ruta_archivo.exists()` for a file expected at the base folder. -/
def existe (e : Estado) (n : String) : Bool :=
  e.contenido.any (fun p => decide (p.1 = ([] : Ruta) ∧ nombre p.2 = n))

/-- The `MOVER {origen} -> {destino}` message logged by
`mover_y_organizar` just before the move (02, line 213). -/
def mensajeMover (a a' : Archivo) : String :=
  "MOVER " ++ nombre a ++ " -> " ++ nombre a'

/-- The `ERROR al mover existente ...` message logged by the catch-up
sweep when a move raises (02, line 250). -/
def mensajeError (a : Archivo) : String :=
  "ERROR al mover existente " ++ nombre a

/-- `mover_y_organizar` (02, lines 178-216): early-returns when the file
vanished; otherwise computes the destination folder, creates it, resolves
the collision-free name, logs the MOVER line, and moves.  The second
component is `some msg` when `shutil.move` raised (`falla`); the effects
performed before the raise — the directory creation and the MOVER log
line — persist in the returned state. -/
def mover_y_organizar (a : Archivo) (e : Estado) : Estado × Option String :=
  if existe e (nombre a) then
    let d := carpeta_destino a
    let e₁ := mkdir d e
    let a' := resolver (nombresEn e₁.contenido d) a
    let e₂ := escribir_log (mensajeMover a a') e₁
    if a.falla then (e₂, some (nombre a))
    else
      let restante :=
        e₂.contenido.filter (fun p => decide (¬ (p.1 = ([] : Ruta) ∧ nombre p.2 = nombre a)))
      ({ e₂ with contenido := restante ++ [(d, a')] }, none)
  else (e, none)

/-- `_procesar_archivo_nuevo` (02, lines 124-146): the shared body of the
`on_created` / `on_moved` event handlers.  Skips the log file and
temporary extensions before anything else; exceptions from the move are
caught and only printed, so the state reached before the raise is kept. -/
def procesar_archivo_nuevo (a : Archivo) (e : Estado) : Estado :=
  if nombre a = FICHERO_LOG then e
  else if minusculas a.sufijo ∈ EXTENSIONES_TEMPORALES then e
  else (mover_y_organizar a e).1

/-- A file newly appearing in the watched base folder (the external
watchdog event source reporting a creation or a rename-into-place). -/
def crear (a : Archivo) (e : Estado) : Estado :=
  { e with contenido := e.contenido ++ [([], a)] }

/-- `procesar_archivos_existentes` (02, lines 219-252): the catch-up sweep
over the files currently at the base folder, with the
`total_encontrados` / `total_movidos` counters; a raising move is caught,
logged as an ERROR line, and the sweep continues with the next file. -/
def procesar_archivos_existentes :
    List Archivo → Estado → Nat → Nat → Estado × Nat × Nat
  | [], e, encontrados, movidos => (e, encontrados, movidos)
  | a :: resto, e, encontrados, movidos =>
    if nombre a = FICHERO_LOG then
      procesar_archivos_existentes resto e encontrados movidos
    else if minusculas a.sufijo ∈ EXTENSIONES_TEMPORALES then
      procesar_archivos_existentes resto e encontrados movidos
    else
      match mover_y_organizar a e with
      | (e', none) =>
        procesar_archivos_existentes resto e' (encontrados + 1) (movidos + 1)
      | (e', some _) =>
        procesar_archivos_existentes resto (escribir_log (mensajeError a) e')
          (encontrados + 1) movidos

end Descargas

namespace Organizador

/-- `shutil.move(str(archivo), str(destino))` in the CLI loop (03, line
216): the file leaves its current directory `u` and appears in `d` under
its resolved record `a'`. -/
def mover (u : Ruta) (a : Archivo) (d : Ruta) (a' : Archivo) (e : Estado) : Estado :=
  { e with contenido :=
      e.contenido.filter (fun p => decide (¬ (p.1 = u ∧ nombre p.2 = nombre a)))
        ++ [(d, a')] }

/-- The `organizar` command loop (03, lines 194-217) over the listing
produced by `iterar_archivos`, with the `total` / `movidos` counters.
The loop has no per-file exception handler: when `shutil.move` raises
(`falla`) the iteration stops and the last component carries the failing
file's name (Typer aborts the command); the directories created before
the raise persist. -/
def organizar (dry_run : Bool) :
    List (Ruta × Archivo) → Estado → Nat → Nat → Estado × Nat × Nat × Option String
  | [], e, total, movidos => (e, total, movidos, none)
  | (u, archivo) :: resto, e, total, movidos =>
    if minusculas archivo.sufijo ∈ EXTENSIONES_TEMPORALES then
      organizar dry_run resto e total movidos
    else
      let carpeta := destino_para_archivo archivo
      let e₁ := mkdir carpeta e
      let archivo' := resolver (nombresEn e₁.contenido carpeta) archivo
      if dry_run then
        organizar dry_run resto e₁ (total + 1) movidos
      else if archivo.falla then
        (e₁, total + 1, movidos, some (nombre archivo))
      else
        organizar dry_run resto (mover u archivo carpeta archivo' e₁)
          (total + 1) (movidos + 1)

/-- `iterar_archivos` with `recursivo=False` (03, line 128): the files
directly at the base folder. -/
def listar_raiz (e : Estado) : List (Ruta × Archivo) :=
  e.contenido.filter (fun p => decide (p.1 = ([] : Ruta)))

/-- `iterar_archivos` with `recursivo=True` (03, line 126): all files of
the tree, as the snapshot `rglob` captures before the loop mutates it. -/
def listar_recursivo (e : Estado) : List (Ruta × Archivo) :=
  e.contenido

end Organizador

/-- The state used by the C4 counterexample: one `report.pdf` at the base
folder of an otherwise empty tree, no directories, empty log. -/
def estadoC4 : Estado :=
  ⟨[(([] : Ruta), ⟨"report", ".pdf", ⟨2024, 3, 10⟩, false⟩)], [], []⟩

/-- The state used by the C7 counterexample: one ordinary `report.pdf` at
the base folder, empty log. -/
def estadoC7 : Estado :=
  ⟨[(([] : Ruta), ⟨"report", ".pdf", ⟨2024, 3, 10⟩, false⟩)], [], []⟩

/-- A file counted by the watch-mode catch-up sweep: neither the log file
nor a temporary extension (02, lines 237-241). -/
def Descargas.elegible (a : Archivo) : Bool :=
  decide (nombre a ≠ Descargas.FICHERO_LOG)
    && decide (minusculas a.sufijo ∉ EXTENSIONES_TEMPORALES)

/-- The state used by the C8 counterexample: two files at the base folder,
the first of which raises on move (e.g. permission denied). -/
def estadoC8 : Estado :=
  ⟨[(([] : Ruta), ⟨"a", ".pdf", ⟨2024, 3, 10⟩, true⟩),
    (([] : Ruta), ⟨"b", ".pdf", ⟨2024, 3, 10⟩, false⟩)], [], []⟩

/-! ### Idempotence of the watch-mode catch-up sweep (C5) -/

/-- A root file the catch-up sweep leaves at the base folder: the log
file, a temporary extension, or a file whose move raises. -/
def Descargas.escapa (a : Archivo) : Bool :=
  decide (nombre a = Descargas.FICHERO_LOG)
    || decide (minusculas a.sufijo ∈ EXTENSIONES_TEMPORALES)
    || a.falla

/-- The state used by the C5 witness: a single healthy `a.pdf` at the
base folder. -/
def estadoC5w : Estado :=
  ⟨[(([] : Ruta), ⟨"a", ".pdf", ⟨2024, 3, 10⟩, false⟩)], [], []⟩

/-- The state used by the C5 counterexample: a tree already organized by
a previous run — `f.pdf` sits exactly at its computed destination
`documentos/2024/marzo/1-15` and nothing else is present. -/
def estadoC5 : Estado :=
  ⟨[(["documentos", "2024", "marzo", "1-15"], ⟨"f", ".pdf", ⟨2024, 3, 10⟩, false⟩)],
   [["documentos", "2024", "marzo", "1-15"]], []⟩

example : Descargas.categoria_para_extension ".PDF" = "documentos" := rfl

example : Organizador.categoria_para_extension ".json" = "otros" := rfl

example : Descargas.categoria_para_extension ".json" = "scripts" := rfl

theorem decChars_eq (n : Nat) :
    decChars n
      = (if n < 10 then [] else decChars (n / 10)) ++ [Nat.digitChar (n % 10)] := by
  rw [decChars]
  by_cases h : n < 10
  · simp [h, Nat.mod_eq_of_lt h]
  · simp [h]

theorem decChars_ne_nil (n : Nat) : decChars n ≠ [] := by
  rw [decChars_eq]
  simp

theorem toDigitsCore_eq_decChars :
    ∀ (fuel n : Nat) (ds : List Char), n < fuel →
      Nat.toDigitsCore 10 fuel n ds = decChars n ++ ds := by
  intro fuel
  induction fuel with
  | zero => intro n ds h; omega
  | succ fuel ih =>
    intro n ds h
    simp only [Nat.toDigitsCore]
    by_cases h10 : n / 10 = 0
    · have hlt : n < 10 := by omega
      rw [if_pos h10, decChars_eq, if_pos hlt]
      simp
    · have hge : 10 ≤ n := by omega
      have hdiv : n / 10 < n := Nat.div_lt_self (by omega) (by omega)
      rw [if_neg h10, ih _ _ (by omega), decChars_eq n, if_neg (by omega)]
      simp

theorem repr_eq_decChars (n : Nat) : Nat.repr n = (decChars n).asString := by
  show (Nat.toDigitsCore 10 (n + 1) n []).asString = _
  rw [toDigitsCore_eq_decChars _ _ _ (Nat.lt_succ_self n)]
  simp

theorem digitChar_injOn :
    ∀ a, a < 10 → ∀ b, b < 10 → Nat.digitChar a = Nat.digitChar b → a = b := by
  decide

theorem decChars_injective : ∀ m n : Nat, decChars m = decChars n → m = n := by
  intro m
  induction m using Nat.strong_induction_on with
  | _ m ih =>
    intro n h
    rw [decChars_eq m, decChars_eq n] at h
    obtain ⟨hp, hd⟩ := List.append_inj' h rfl
    have hmod : m % 10 = n % 10 := by
      have h1 : Nat.digitChar (m % 10) = Nat.digitChar (n % 10) := by simpa using hd
      exact digitChar_injOn _ (Nat.mod_lt _ (by omega)) _ (Nat.mod_lt _ (by omega)) h1
    by_cases hm : m < 10 <;> by_cases hn : n < 10
    · omega
    · rw [if_pos hm, if_neg hn] at hp
      exact absurd hp.symm (decChars_ne_nil _)
    · rw [if_neg hm, if_pos hn] at hp
      exact absurd hp (decChars_ne_nil _)
    · rw [if_neg hm, if_neg hn] at hp
      have hdiv : m / 10 = n / 10 :=
        ih (m / 10) (Nat.div_lt_self (by omega) (by omega)) (n / 10) hp
      omega

theorem repr_injective : ∀ m n : Nat, Nat.repr m = Nat.repr n → m = n := by
  intro m n h
  apply decChars_injective
  have hd := congrArg String.data h
  rw [repr_eq_decChars, repr_eq_decChars] at hd
  simpa [List.asString] using hd

theorem nombre_conSufijoNum (a : Archivo) (k : Nat) :
    nombre (conSufijoNum a k) = candidato a k := rfl

theorem candidato_injective (a : Archivo) :
    ∀ j k : Nat, candidato a j = candidato a k → j = k := by
  intro j k h
  have hd := congrArg String.data h
  simp only [candidato, String.data_append] at hd
  obtain ⟨hl, -⟩ := List.append_inj' hd rfl
  obtain ⟨-, hr⟩ := List.append_inj hl rfl
  have : Nat.repr j = Nat.repr k := String.ext hr
  exact repr_injective _ _ this

theorem buscarLibre_libre (nombres : List String) (a : Archivo) :
    ∀ (fuel contador : Nat) (actual r : Archivo),
      buscarLibre nombres a contador fuel actual = some r →
      nombre r ∉ nombres := by
  intro fuel
  induction fuel with
  | zero => intro _ _ _ h; simp [buscarLibre] at h
  | succ fuel ih =>
    intro contador actual r h
    rw [buscarLibre] at h
    by_cases hmem : nombre actual ∈ nombres
    · rw [if_pos hmem] at h
      exact ih _ _ _ h
    · rw [if_neg hmem] at h
      obtain rfl := Option.some.inj h
      exact hmem

theorem existe_candidato_libre (nombres : List String) (a : Archivo) :
    ∃ j, 1 ≤ j ∧ j ≤ nombres.length + 1 ∧ nombre (conSufijoNum a j) ∉ nombres := by
  by_contra hc
  push_neg at hc
  have hmaps : ∀ j ∈ Finset.Icc 1 (nombres.length + 1),
      nombre (conSufijoNum a j) ∈ nombres.toFinset := by
    intro j hj
    rw [Finset.mem_Icc] at hj
    rw [List.mem_toFinset]
    exact hc j hj.1 hj.2
  have hinj : Set.InjOn (fun j => nombre (conSufijoNum a j))
      (Finset.Icc 1 (nombres.length + 1)) := by
    intro x _ y _ hxy
    exact candidato_injective a x y hxy
  have hcard := Finset.card_le_card_of_injOn _ hmaps hinj
  rw [Nat.card_Icc] at hcard
  have hle : nombres.toFinset.card ≤ nombres.length := nombres.toFinset_card_le
  omega

theorem buscarLibre_isSome (nombres : List String) (a : Archivo) :
    ∀ (fuel contador : Nat) (actual : Archivo),
      ((nombre actual ∉ nombres ∧ 0 < fuel) ∨
        (∃ j, contador ≤ j ∧ j + 1 < contador + fuel ∧
          nombre (conSufijoNum a j) ∉ nombres)) →
      (buscarLibre nombres a contador fuel actual).isSome := by
  intro fuel
  induction fuel with
  | zero =>
    rintro contador actual (⟨-, h⟩ | ⟨j, hj1, hj2, -⟩) <;> omega
  | succ fuel ih =>
    intro contador actual h
    rw [buscarLibre]
    by_cases hmem : nombre actual ∈ nombres
    · rw [if_pos hmem]
      apply ih
      rcases h with ⟨hfree, -⟩ | ⟨j, hj1, hj2, hjfree⟩
      · exact absurd hmem hfree
      · rcases Nat.eq_or_lt_of_le hj1 with rfl | hlt
        · exact Or.inl ⟨hjfree, by omega⟩
        · exact Or.inr ⟨j, by omega, by omega, hjfree⟩
    · rw [if_neg hmem]
      rfl

theorem buscarLibre_encuentra (nombres : List String) (a : Archivo) :
    buscarLibre nombres a 1 (nombres.length + 2) a = some (resolver nombres a) := by
  have hsome : (buscarLibre nombres a 1 (nombres.length + 2) a).isSome := by
    apply buscarLibre_isSome
    by_cases hmem : nombre a ∈ nombres
    · obtain ⟨j, hj1, hj2, hjfree⟩ := existe_candidato_libre nombres a
      exact Or.inr ⟨j, hj1, by omega, hjfree⟩
    · exact Or.inl ⟨hmem, by omega⟩
  unfold resolver
  cases heq : buscarLibre nombres a 1 (nombres.length + 2) a with
  | some a' => rfl
  | none => rw [heq] at hsome; simp at hsome

theorem buscarLibre_caracterizacion (nombres : List String) (a : Archivo) :
    ∀ (fuel contador : Nat) (actual r : Archivo),
      buscarLibre nombres a contador fuel actual = some r →
        (r = actual ∧ nombre actual ∉ nombres) ∨
        (nombre actual ∈ nombres ∧
          ∃ j, contador ≤ j ∧ r = conSufijoNum a j ∧
            nombre (conSufijoNum a j) ∉ nombres ∧
            ∀ i, contador ≤ i → i < j → nombre (conSufijoNum a i) ∈ nombres) := by
  intro fuel
  induction fuel with
  | zero => intro _ _ _ h; simp [buscarLibre] at h
  | succ fuel ih =>
    intro contador actual r h
    rw [buscarLibre] at h
    by_cases hmem : nombre actual ∈ nombres
    · rw [if_pos hmem] at h
      right
      refine ⟨hmem, ?_⟩
      rcases ih _ _ _ h with ⟨rfl, hfree⟩ | ⟨htaken, j, hj1, hj2, hj3, hj4⟩
      · exact ⟨contador, le_refl _, rfl, hfree, fun i h1 h2 => by omega⟩
      · refine ⟨j, by omega, hj2, hj3, fun i h1 h2 => ?_⟩
        rcases Nat.eq_or_lt_of_le h1 with rfl | hlt
        · exact htaken
        · exact hj4 i (by omega) h2
    · rw [if_neg hmem] at h
      obtain rfl := Option.some.inj h
      exact Or.inl ⟨rfl, hmem⟩

/-- The resolved name never collides with an existing entry. -/
theorem resolver_libre (nombres : List String) (a : Archivo) :
    nombre (resolver nombres a) ∉ nombres :=
  buscarLibre_libre nombres a _ _ _ _ (buscarLibre_encuentra nombres a)

/-- If the original name is free it is kept unchanged. -/
theorem resolver_sin_colision (nombres : List String) (a : Archivo)
    (h : nombre a ∉ nombres) : resolver nombres a = a := by
  rcases buscarLibre_caracterizacion nombres a _ _ _ _
      (buscarLibre_encuentra nombres a) with ⟨heq, -⟩ | ⟨hmem, -⟩
  · exact heq
  · exact absurd hmem h

/-- If the original name is taken, the result is `stem_k ++ suffix` for the
smallest counter `k ≥ 1` whose candidate is free. -/
theorem resolver_con_colision (nombres : List String) (a : Archivo)
    (h : nombre a ∈ nombres) :
    ∃ j, 1 ≤ j ∧ resolver nombres a = conSufijoNum a j ∧
      nombre (conSufijoNum a j) ∉ nombres ∧
      ∀ i, 1 ≤ i → i < j → nombre (conSufijoNum a i) ∈ nombres := by
  rcases buscarLibre_caracterizacion nombres a _ _ _ _
      (buscarLibre_encuentra nombres a) with ⟨-, hfree⟩ | ⟨-, j, hj1, hj2, hj3, hj4⟩
  · exact absurd h hfree
  · exact ⟨j, hj1, hj2, hj3, hj4⟩

example : resolver ["f.pdf"] ⟨"f", ".pdf", ⟨2024, 3, 10⟩, false⟩
    = ⟨"f_1", ".pdf", ⟨2024, 3, 10⟩, false⟩ := by decide

example : resolver ["f.pdf", "f_1.pdf"] ⟨"f", ".pdf", ⟨2024, 3, 10⟩, false⟩
    = ⟨"f_2", ".pdf", ⟨2024, 3, 10⟩, false⟩ := by decide

example : resolver ["g.pdf"] ⟨"f", ".pdf", ⟨2024, 3, 10⟩, false⟩
    = ⟨"f", ".pdf", ⟨2024, 3, 10⟩, false⟩ := by decide

/-! ### Lowercasing is idempotent -/

theorem toNat_ofNat_valid (n : Nat) (h : n.isValidChar) : (Char.ofNat n).toNat = n := by
  simp [Char.ofNat, h, Char.ofNatAux, Char.toNat, UInt32.toNat, BitVec.toNat_ofNatLt]

theorem char_toLower_idem (c : Char) : c.toLower.toLower = c.toLower := by
  unfold Char.toLower
  by_cases h : c.toNat ≥ 65 ∧ c.toNat ≤ 90
  · rw [if_pos h]
    have hv : (c.toNat + 32).isValidChar := Or.inl (by omega)
    rw [toNat_ofNat_valid _ hv, if_neg (by omega)]
  · rw [if_neg h, if_neg h]

theorem minusculas_idem (s : String) : minusculas (minusculas s) = minusculas s := by
  show String.mk (List.map Char.toLower (List.map Char.toLower s.data)) = _
  rw [List.map_map]
  exact congrArg String.mk (List.map_congr_left fun a _ => char_toLower_idem a)

theorem categoria_minusculas_wd (s : String) :
    Descargas.categoria_para_extension (minusculas s)
      = Descargas.categoria_para_extension s := by
  simp only [Descargas.categoria_para_extension, minusculas_idem]

theorem categoria_minusculas_cli (s : String) :
    Organizador.categoria_para_extension (minusculas s)
      = Organizador.categoria_para_extension s := by
  simp only [Organizador.categoria_para_extension, minusculas_idem]

example : Organizador.destino_para_archivo ⟨"report", ".pdf", ⟨2024, 3, 10⟩, false⟩
    = ["documentos", "2024", "marzo", "1-15"] := by decide

/-- Claim C2: the planned destination directory is
category / year / month-name / half-month-bucket relative to the root,
with the year, month and day taken from the file's modification date, the
month name from the fixed 12-entry localized table `MESES_ES`, and the
bucket `"1-15"` when the day-of-month is at most 15 and `"16-31"`
otherwise; two files with the same category and the same modification
date get the identical planned directory (in both scripts). -/
theorem C2_destino_determinista :
    MESES_ES.length = 12 ∧
    (∀ a : Archivo, Organizador.destino_para_archivo a =
      [Organizador.categoria_para_extension a.sufijo, Nat.repr a.fecha.year,
       MESES_ES.getD (a.fecha.month - 1) "",
       if a.fecha.day ≤ 15 then "1-15" else "16-31"]) ∧
    (∀ a : Archivo, Descargas.carpeta_destino a =
      [Descargas.categoria_para_extension a.sufijo, Nat.repr a.fecha.year,
       MESES_ES.getD (a.fecha.month - 1) "",
       if a.fecha.day ≤ 15 then "1-15" else "16-31"]) ∧
    (∀ a b : Archivo,
      Organizador.categoria_para_extension a.sufijo
        = Organizador.categoria_para_extension b.sufijo →
      a.fecha = b.fecha →
      Organizador.destino_para_archivo a = Organizador.destino_para_archivo b) ∧
    (∀ a b : Archivo,
      Descargas.categoria_para_extension a.sufijo
        = Descargas.categoria_para_extension b.sufijo →
      a.fecha = b.fecha →
      Descargas.carpeta_destino a = Descargas.carpeta_destino b) := by
  refine ⟨rfl, ?_, ?_, ?_, ?_⟩
  · intro a
    simp only [Organizador.destino_para_archivo, categoria_minusculas_cli]
  · intro a
    simp only [Descargas.carpeta_destino, categoria_minusculas_wd]
  · intro a b hcat hfec
    simp only [Organizador.destino_para_archivo, categoria_minusculas_cli, hcat, hfec]
  · intro a b hcat hfec
    simp only [Descargas.carpeta_destino, categoria_minusculas_wd, hcat, hfec]

/-- Witness for C2 at the spec's own scenario: `report.pdf` modified on
2024-03-10 lands in `documentos/2024/marzo/1-15`. -/
theorem C2_destino_determinista_witness :
    Organizador.destino_para_archivo ⟨"report", ".pdf", ⟨2024, 3, 10⟩, false⟩
        = Organizador.destino_para_archivo ⟨"otro", ".txt", ⟨2024, 3, 10⟩, true⟩ ∧
    Organizador.destino_para_archivo ⟨"report", ".pdf", ⟨2024, 3, 10⟩, false⟩
        = ["documentos", "2024", "marzo", "1-15"] :=
  ⟨C2_destino_determinista.2.2.2.1 _ _ (by decide) rfl, by decide⟩

/-- Claim C3: both classifiers are total (every extension maps to one of
the seven fixed labels), lowercase their input before lookup (two
spellings equal up to case classify identically), and follow the fixed
priority order datos, documentos, imagenes, videos, comprimidos, scripts
with default "otros" — the if-chain shape made explicit. -/
theorem C3_clasificador_total_determinista :
    (∀ s : String, Descargas.categoria_para_extension s ∈
      ["datos", "documentos", "imagenes", "videos", "comprimidos", "scripts", "otros"]) ∧
    (∀ s : String, Organizador.categoria_para_extension s ∈
      ["datos", "documentos", "imagenes", "videos", "comprimidos", "scripts", "otros"]) ∧
    (∀ s t : String, minusculas s = minusculas t →
      Descargas.categoria_para_extension s = Descargas.categoria_para_extension t) ∧
    (∀ s t : String, minusculas s = minusculas t →
      Organizador.categoria_para_extension s = Organizador.categoria_para_extension t) ∧
    (∀ s : String, Descargas.categoria_para_extension s =
      (if minusculas s ∈ Descargas.EXT_DATOS then "datos"
       else if minusculas s ∈ Descargas.EXT_DOCS then "documentos"
       else if minusculas s ∈ Descargas.EXT_IMG then "imagenes"
       else if minusculas s ∈ Descargas.EXT_VIDEO then "videos"
       else if minusculas s ∈ Descargas.EXT_COMP then "comprimidos"
       else if minusculas s ∈ Descargas.EXT_SCRIPTS then "scripts"
       else "otros")) ∧
    (∀ s : String, Organizador.categoria_para_extension s =
      (if minusculas s ∈ Organizador.EXT_DATOS then "datos"
       else if minusculas s ∈ Organizador.EXT_DOCS then "documentos"
       else if minusculas s ∈ Organizador.EXT_IMG then "imagenes"
       else if minusculas s ∈ Organizador.EXT_VIDEO then "videos"
       else if minusculas s ∈ Organizador.EXT_COMP then "comprimidos"
       else if minusculas s ∈ Organizador.EXT_SCRIPTS then "scripts"
       else "otros")) := by
  refine ⟨?_, ?_, ?_, ?_, fun s => rfl, fun s => rfl⟩
  · intro s
    simp only [Descargas.categoria_para_extension]
    split_ifs <;> simp
  · intro s
    simp only [Organizador.categoria_para_extension]
    split_ifs <;> simp
  · intro s t h
    simp only [Descargas.categoria_para_extension, h]
  · intro s t h
    simp only [Organizador.categoria_para_extension, h]

/-- Witness for C3: `.PDF` and `.pdf` classify identically in both
scripts, and the classifier output lies in the label set. -/
theorem C3_clasificador_total_determinista_witness :
    Descargas.categoria_para_extension ".PDF" = Descargas.categoria_para_extension ".pdf" ∧
    Organizador.categoria_para_extension ".JPG" = Organizador.categoria_para_extension ".jpg" :=
  ⟨C3_clasificador_total_determinista.2.2.1 ".PDF" ".pdf" (by decide),
   C3_clasificador_total_determinista.2.2.2.1 ".JPG" ".jpg" (by decide)⟩

theorem docs_wd_eq_cli_append :
    Descargas.EXT_DOCS
      = Organizador.EXT_DOCS ++ [".vtt", ".odt", ".rtf", ".epub", ".md", ".srt"] := rfl

/-- Claim C9, counterexample: the watch-mode classifier and the CLI
classifier disagree on the extension `".json"` (scripts vs otros), so
they do not return the same category for every extension string. -/
theorem C9_contraejemplo :
    Descargas.categoria_para_extension ".json" = "scripts" ∧
    Organizador.categoria_para_extension ".json" = "otros" ∧
    ("scripts" : String) ≠ "otros" :=
  ⟨rfl, rfl, by decide⟩

/-- Claim C9, amended: the two entry points carry separate copies of the
classification tables; they agree on every extension except the seven
listed in `extensionesSoloWatchdog` (`.vtt .odt .rtf .epub .md .srt`,
documentos vs otros, and `.json`, scripts vs otros), on which the
watch-mode classifier knows the extension and the CLI one falls to
"otros". -/
theorem C9_clasificadores_coinciden (s : String)
    (h : minusculas s ∉ extensionesSoloWatchdog) :
    Descargas.categoria_para_extension s = Organizador.categoria_para_extension s := by
  have hdocs : (minusculas s ∈ Descargas.EXT_DOCS)
      ↔ (minusculas s ∈ Organizador.EXT_DOCS) := by
    rw [docs_wd_eq_cli_append, List.mem_append]
    simp only [extensionesSoloWatchdog, List.mem_cons, List.not_mem_nil, or_false] at h
    push_neg at h
    constructor
    · rintro (hm | hm)
      · exact hm
      · simp only [List.mem_cons, List.not_mem_nil, or_false] at hm
        rcases hm with h1 | h1 | h1 | h1 | h1 | h1 <;> exact absurd h1 (by tauto)
    · exact Or.inl
  have hperm : Descargas.EXT_SCRIPTS.Perm (".json" :: Organizador.EXT_SCRIPTS) := by
    decide
  have hscr : (minusculas s ∈ Descargas.EXT_SCRIPTS)
      ↔ (minusculas s ∈ Organizador.EXT_SCRIPTS) := by
    rw [hperm.mem_iff, List.mem_cons]
    simp only [extensionesSoloWatchdog, List.mem_cons, List.not_mem_nil, or_false] at h
    push_neg at h
    constructor
    · rintro (h1 | h1)
      · exact absurd h1 h.2.2.2.2.2.2
      · exact h1
    · exact Or.inr
  have hdat : (minusculas s ∈ Descargas.EXT_DATOS)
      ↔ (minusculas s ∈ Organizador.EXT_DATOS) := Iff.rfl
  have himg : (minusculas s ∈ Descargas.EXT_IMG)
      ↔ (minusculas s ∈ Organizador.EXT_IMG) := Iff.rfl
  have hvid : (minusculas s ∈ Descargas.EXT_VIDEO)
      ↔ (minusculas s ∈ Organizador.EXT_VIDEO) := Iff.rfl
  have hcom : (minusculas s ∈ Descargas.EXT_COMP)
      ↔ (minusculas s ∈ Organizador.EXT_COMP) := Iff.rfl
  simp only [Descargas.categoria_para_extension, Organizador.categoria_para_extension]
  by_cases h1 : minusculas s ∈ Descargas.EXT_DATOS
  · rw [if_pos h1, if_pos (hdat.mp h1)]
  · rw [if_neg h1, if_neg (fun hc => h1 (hdat.mpr hc))]
    by_cases h2 : minusculas s ∈ Descargas.EXT_DOCS
    · rw [if_pos h2, if_pos (hdocs.mp h2)]
    · rw [if_neg h2, if_neg (fun hc => h2 (hdocs.mpr hc))]
      by_cases h3 : minusculas s ∈ Descargas.EXT_IMG
      · rw [if_pos h3, if_pos (himg.mp h3)]
      · rw [if_neg h3, if_neg (fun hc => h3 (himg.mpr hc))]
        by_cases h4 : minusculas s ∈ Descargas.EXT_VIDEO
        · rw [if_pos h4, if_pos (hvid.mp h4)]
        · rw [if_neg h4, if_neg (fun hc => h4 (hvid.mpr hc))]
          by_cases h5 : minusculas s ∈ Descargas.EXT_COMP
          · rw [if_pos h5, if_pos (hcom.mp h5)]
          · rw [if_neg h5, if_neg (fun hc => h5 (hcom.mpr hc))]
            by_cases h6 : minusculas s ∈ Descargas.EXT_SCRIPTS
            · rw [if_pos h6, if_pos (hscr.mp h6)]
            · rw [if_neg h6, if_neg (fun hc => h6 (hscr.mpr hc))]

/-- Witness for the amended C9 at `.PDF`. -/
theorem C9_clasificadores_coinciden_witness :
    Descargas.categoria_para_extension ".PDF" = Organizador.categoria_para_extension ".PDF" :=
  C9_clasificadores_coinciden ".PDF" (by decide)

theorem mkdir_contenido (d : Ruta) (e : Estado) : (mkdir d e).contenido = e.contenido := by
  unfold mkdir
  split <;> rfl

theorem mkdir_log (d : Ruta) (e : Estado) : (mkdir d e).log = e.log := by
  unfold mkdir
  split <;> rfl

/-! ### Helper lemmas about the state operations -/

theorem nombresEn_append (c c' : List (Ruta × Archivo)) (d : Ruta) :
    nombresEn (c ++ c') d = nombresEn c d ++ nombresEn c' d := by
  simp [nombresEn, List.filter_append]

theorem nombresEn_raiz_singleton (x : Archivo) (d : Ruta) (hd : d ≠ []) :
    nombresEn [(([] : Ruta), x)] d = [] := by
  have hne : ¬ (([] : Ruta) = d) := fun h => hd h.symm
  simp [nombresEn, hne]

theorem nombresEn_dest_singleton (x : Archivo) (d : Ruta) :
    nombresEn [(d, x)] d = [nombre x] := by
  simp [nombresEn]

namespace Descargas

theorem carpeta_destino_ne_nil (a : Archivo) : carpeta_destino a ≠ [] := by
  simp [carpeta_destino]

theorem existe_crear (a : Archivo) (e : Estado) : existe (crear a e) (nombre a) = true := by
  simp [existe, crear, List.any_append]

theorem mover_no_existe (a : Archivo) (e : Estado)
    (hex : existe e (nombre a) = false) :
    mover_y_organizar a e = (e, none) := by
  simp [mover_y_organizar, hex]

theorem mover_falla (a : Archivo) (e : Estado)
    (hex : existe e (nombre a) = true) (hf : a.falla = true) :
    mover_y_organizar a e =
      (escribir_log
        (mensajeMover a (resolver (nombresEn e.contenido (carpeta_destino a)) a))
        (mkdir (carpeta_destino a) e),
       some (nombre a)) := by
  simp [mover_y_organizar, hex, hf, mkdir_contenido]

theorem mover_exito (a : Archivo) (e : Estado)
    (hex : existe e (nombre a) = true) (hf : a.falla = false) :
    mover_y_organizar a e =
      ({ contenido :=
           e.contenido.filter
               (fun p => decide (¬ (p.1 = ([] : Ruta) ∧ nombre p.2 = nombre a)))
             ++ [(carpeta_destino a,
                  resolver (nombresEn e.contenido (carpeta_destino a)) a)],
         dirs := (mkdir (carpeta_destino a) e).dirs,
         log := e.log ++
           [mensajeMover a (resolver (nombresEn e.contenido (carpeta_destino a)) a)] },
       none) := by
  simp [mover_y_organizar, hex, hf, mkdir_contenido, mkdir_log, escribir_log]

end Descargas

/-- Claim C4 (amended): with the dry-run flag, the CLI sweep moves no
file (the file list is untouched and `movidos` stays put), writes no log
entry, and never aborts; destination directories, however, are created
even in dry-run mode (`C4_contraejemplo`). -/
theorem C4_dry_run_sin_movimientos :
    ∀ (L : List (Ruta × Archivo)) (e : Estado) (total movidos : Nat),
      (Organizador.organizar true L e total movidos).1.contenido = e.contenido ∧
      (Organizador.organizar true L e total movidos).1.log = e.log ∧
      (Organizador.organizar true L e total movidos).2.2.1 = movidos ∧
      (Organizador.organizar true L e total movidos).2.2.2 = none := by
  intro L
  induction L with
  | nil => intro e t m; exact ⟨rfl, rfl, rfl, rfl⟩
  | cons p resto ih =>
    obtain ⟨u, archivo⟩ := p
    intro e t m
    by_cases htmp : minusculas archivo.sufijo ∈ EXTENSIONES_TEMPORALES
    · rw [Organizador.organizar, if_pos htmp]
      exact ih e t m
    · rw [Organizador.organizar, if_neg htmp]
      simp only [if_pos rfl]
      obtain ⟨h1, h2, h3, h4⟩ :=
        ih (mkdir (Organizador.destino_para_archivo archivo) e) (t + 1) m
      rw [mkdir_contenido] at h1
      rw [mkdir_log] at h2
      exact ⟨h1, h2, h3, h4⟩

/-- Claim C4, counterexample: a dry-run over `estadoC4` creates the
destination directory `documentos/2024/marzo/1-15` (the `mkdir` of 03,
line 204, runs before the dry-run branch), so the filesystem is not left
completely unchanged as the claim states. -/
theorem C4_contraejemplo :
    estadoC4.dirs = [] ∧
    (Organizador.organizar true (Organizador.listar_raiz estadoC4) estadoC4 0 0).1.dirs
      = [["documentos", "2024", "marzo", "1-15"]] := by
  constructor
  · rfl
  · decide

/-- Claim C6: a file whose (lowercased) extension is in
`EXTENSIONES_TEMPORALES` is never moved by any entry point — the watchdog
event handler, the watchdog catch-up sweep, and the CLI sweep all skip it
before attempting anything, leaving the state (including the log)
untouched. -/
theorem C6_temporales_nunca_procesados :
    ∀ a : Archivo, minusculas a.sufijo ∈ EXTENSIONES_TEMPORALES →
      (∀ e : Estado, Descargas.procesar_archivo_nuevo a e = e) ∧
      (∀ (L : List Archivo) (e : Estado) (enc mov : Nat),
        Descargas.procesar_archivos_existentes (a :: L) e enc mov
          = Descargas.procesar_archivos_existentes L e enc mov) ∧
      (∀ (u : Ruta) (resto : List (Ruta × Archivo)) (e : Estado)
          (total mov : Nat) (dry : Bool),
        Organizador.organizar dry ((u, a) :: resto) e total mov
          = Organizador.organizar dry resto e total mov) := by
  intro a htmp
  refine ⟨?_, ?_, ?_⟩
  · intro e
    unfold Descargas.procesar_archivo_nuevo
    by_cases hlog : nombre a = Descargas.FICHERO_LOG
    · rw [if_pos hlog]
    · rw [if_neg hlog, if_pos htmp]
  · intro L e enc mov
    rw [Descargas.procesar_archivos_existentes]
    by_cases hlog : nombre a = Descargas.FICHERO_LOG
    · rw [if_pos hlog]
    · rw [if_neg hlog, if_pos htmp]
  · intro u resto e total mov dry
    rw [Organizador.organizar, if_pos htmp]

/-- Witness for C6 with a concrete `.crdownload` file over a small state. -/
theorem C6_temporales_nunca_procesados_witness :
    Descargas.procesar_archivo_nuevo ⟨"x", ".crdownload", ⟨2024, 3, 10⟩, false⟩
        ⟨[], [], []⟩ = ⟨[], [], []⟩ ∧
    Organizador.organizar false
        [(([] : Ruta), ⟨"x", ".crdownload", ⟨2024, 3, 10⟩, false⟩)] ⟨[], [], []⟩ 0 0
      = Organizador.organizar false [] ⟨[], [], []⟩ 0 0 :=
  ⟨(C6_temporales_nunca_procesados _ (by decide)).1 _,
   (C6_temporales_nunca_procesados _ (by decide)).2.2 [] [] ⟨[], [], []⟩ 0 0 false⟩

/-- Claim C7 (amended): in the watch-mode script every relocation attempt
on an observed file writes the `MOVER origen -> destino` log line before
the move is attempted (so both success and failure leave that entry), and
a failure inside the catch-up sweep appends one further ERROR entry; the
CLI script, by contrast, never writes any log entry in any mode. -/
theorem C7_registro_por_intento :
    (∀ (a : Archivo) (e : Estado), Descargas.existe e (nombre a) = true →
      (Descargas.mover_y_organizar a e).1.log
        = e.log ++ [Descargas.mensajeMover a
            (resolver (nombresEn e.contenido (Descargas.carpeta_destino a)) a)]) ∧
    (∀ (a : Archivo) (resto : List Archivo) (e : Estado) (enc mov : Nat),
      nombre a ≠ Descargas.FICHERO_LOG →
      minusculas a.sufijo ∉ EXTENSIONES_TEMPORALES →
      Descargas.existe e (nombre a) = true → a.falla = true →
      Descargas.procesar_archivos_existentes (a :: resto) e enc mov
        = Descargas.procesar_archivos_existentes resto
            (Descargas.escribir_log (Descargas.mensajeError a)
              (Descargas.mover_y_organizar a e).1) (enc + 1) mov) ∧
    (∀ (dry : Bool) (L : List (Ruta × Archivo)) (e : Estado) (total mov : Nat),
      (Organizador.organizar dry L e total mov).1.log = e.log) := by
  refine ⟨?_, ?_, ?_⟩
  · intro a e hex
    by_cases hf : a.falla = true
    · rw [Descargas.mover_falla a e hex hf]
      simp [Descargas.escribir_log, mkdir_log]
    · have hf' : a.falla = false := by simpa using hf
      rw [Descargas.mover_exito a e hex hf']
  · intro a resto e enc mov hlog htmp hex hf
    rw [Descargas.procesar_archivos_existentes, if_neg hlog, if_neg htmp,
      Descargas.mover_falla a e hex hf]
  · intro dry L
    induction L with
    | nil => intro e t m; rfl
    | cons p resto ih =>
      obtain ⟨u, archivo⟩ := p
      intro e t m
      by_cases htmp : minusculas archivo.sufijo ∈ EXTENSIONES_TEMPORALES
      · rw [Organizador.organizar, if_pos htmp]
        exact ih e t m
      · rw [Organizador.organizar, if_neg htmp]
        cases hdry : dry with
        | true =>
          rw [hdry] at ih
          simp only [if_pos rfl, if_true]
          rw [ih (mkdir (Organizador.destino_para_archivo archivo) e) (t + 1) m,
            mkdir_log]
        | false =>
          rw [hdry] at ih
          simp only [Bool.false_eq_true, if_false]
          by_cases hfalla : archivo.falla = true
          · rw [if_pos hfalla]
            exact mkdir_log _ _
          · rw [if_neg hfalla]
            rw [ih _ (t + 1) (m + 1)]
            simp [Organizador.mover, mkdir_log]

/-- Witness for the amended C7: a successful move of `nota.pdf` logs
exactly its MOVER line; the CLI sweep of the same file logs nothing. -/
theorem C7_registro_por_intento_witness :
    (Descargas.mover_y_organizar ⟨"nota", ".pdf", ⟨2024, 3, 10⟩, false⟩
        ⟨[(([] : Ruta), ⟨"nota", ".pdf", ⟨2024, 3, 10⟩, false⟩)], [], []⟩).1.log
      = [] ++ [Descargas.mensajeMover ⟨"nota", ".pdf", ⟨2024, 3, 10⟩, false⟩
          (resolver (nombresEn [(([] : Ruta), ⟨"nota", ".pdf", ⟨2024, 3, 10⟩, false⟩)]
            (Descargas.carpeta_destino ⟨"nota", ".pdf", ⟨2024, 3, 10⟩, false⟩))
            ⟨"nota", ".pdf", ⟨2024, 3, 10⟩, false⟩)] ∧
    (Organizador.organizar false
        [(([] : Ruta), ⟨"nota", ".pdf", ⟨2024, 3, 10⟩, false⟩)]
        ⟨[(([] : Ruta), ⟨"nota", ".pdf", ⟨2024, 3, 10⟩, false⟩)], [], []⟩ 0 0).1.log
      = [] :=
  ⟨C7_registro_por_intento.1 _ _ (by decide),
   C7_registro_por_intento.2.2 false _ _ 0 0⟩

/-- Claim C7, counterexample: the CLI (non-dry-run) sweep over `estadoC7`
performs one relocation (`movidos = 1`) yet appends zero log entries, so
it is not the case that every attempt produces exactly one log entry in
every non-dry-run mode. -/
theorem C7_contraejemplo :
    (Organizador.organizar false (Organizador.listar_raiz estadoC7) estadoC7 0 0).2.2.1
        = 1 ∧
    (Organizador.organizar false (Organizador.listar_raiz estadoC7) estadoC7 0 0).1.log
        = [] := by
  decide

/-- Claim C8 (amended): the watch-mode catch-up sweep isolates failures —
it processes every eligible file of the batch no matter how many earlier
moves raised (the `total_encontrados` counter always reaches the number
of eligible files), and a raising move is caught, logged (MOVER then
ERROR), and leaves every file in place while the sweep continues with the
rest; the CLI sweep has no per-file handler and aborts on the first
raising move (`C8_contraejemplo`). -/
theorem C8_aislamiento_por_archivo :
    (∀ (L : List Archivo) (e : Estado) (enc mov : Nat),
      (Descargas.procesar_archivos_existentes L e enc mov).2.1
        = enc + (L.filter Descargas.elegible).length) ∧
    (∀ (a : Archivo) (resto : List Archivo) (e : Estado) (enc mov : Nat),
      nombre a ≠ Descargas.FICHERO_LOG →
      minusculas a.sufijo ∉ EXTENSIONES_TEMPORALES →
      Descargas.existe e (nombre a) = true → a.falla = true →
      ∃ e' : Estado,
        Descargas.procesar_archivos_existentes (a :: resto) e enc mov
          = Descargas.procesar_archivos_existentes resto e' (enc + 1) mov ∧
        e'.log = e.log
          ++ [Descargas.mensajeMover a
                (resolver (nombresEn e.contenido (Descargas.carpeta_destino a)) a),
              Descargas.mensajeError a] ∧
        e'.contenido = e.contenido) := by
  constructor
  · intro L
    induction L with
    | nil => intro e enc mov; simp [Descargas.procesar_archivos_existentes]
    | cons a resto ih =>
      intro e enc mov
      by_cases hlog : nombre a = Descargas.FICHERO_LOG
      · rw [Descargas.procesar_archivos_existentes, if_pos hlog, ih]
        have : Descargas.elegible a = false := by
          simp [Descargas.elegible, hlog]
        simp [List.filter_cons, this]
      · by_cases htmp : minusculas a.sufijo ∈ EXTENSIONES_TEMPORALES
        · rw [Descargas.procesar_archivos_existentes, if_neg hlog, if_pos htmp, ih]
          have : Descargas.elegible a = false := by
            simp [Descargas.elegible, htmp]
          simp [List.filter_cons, this]
        · rw [Descargas.procesar_archivos_existentes, if_neg hlog, if_neg htmp]
          have hel : Descargas.elegible a = true := by
            simp [Descargas.elegible, hlog, htmp]
          rcases hm : Descargas.mover_y_organizar a e with ⟨e', r⟩
          cases r with
          | none =>
            simp only [ih]
            simp [List.filter_cons, hel]
            omega
          | some msg =>
            simp only [ih]
            simp [List.filter_cons, hel]
            omega
  · intro a resto e enc mov hlog htmp hex hf
    refine ⟨Descargas.escribir_log (Descargas.mensajeError a)
        (Descargas.mover_y_organizar a e).1, ?_, ?_, ?_⟩
    · rw [Descargas.procesar_archivos_existentes, if_neg hlog, if_neg htmp,
        Descargas.mover_falla a e hex hf]
    · rw [Descargas.mover_falla a e hex hf]
      simp [Descargas.escribir_log, mkdir_log]
    · rw [Descargas.mover_falla a e hex hf]
      simp [Descargas.escribir_log, mkdir_contenido]

/-- Witness for the amended C8: in a batch whose first file raises on
move, the watch-mode sweep still counts and processes the second file
(`total_encontrados = 2`, and exactly the healthy file got moved). -/
theorem C8_aislamiento_por_archivo_witness :
    (Descargas.procesar_archivos_existentes
        [⟨"a", ".pdf", ⟨2024, 3, 10⟩, true⟩, ⟨"b", ".pdf", ⟨2024, 3, 10⟩, false⟩]
        ⟨[(([] : Ruta), ⟨"a", ".pdf", ⟨2024, 3, 10⟩, true⟩),
          (([] : Ruta), ⟨"b", ".pdf", ⟨2024, 3, 10⟩, false⟩)], [], []⟩ 0 0).2.1
      = 0 + ([(⟨"a", ".pdf", ⟨2024, 3, 10⟩, true⟩ : Archivo),
              ⟨"b", ".pdf", ⟨2024, 3, 10⟩, false⟩].filter Descargas.elegible).length ∧
    (∃ e' : Estado,
      Descargas.procesar_archivos_existentes
          [⟨"a", ".pdf", ⟨2024, 3, 10⟩, true⟩, ⟨"b", ".pdf", ⟨2024, 3, 10⟩, false⟩]
          ⟨[(([] : Ruta), ⟨"a", ".pdf", ⟨2024, 3, 10⟩, true⟩),
            (([] : Ruta), ⟨"b", ".pdf", ⟨2024, 3, 10⟩, false⟩)], [], []⟩ 0 0
        = Descargas.procesar_archivos_existentes
            [⟨"b", ".pdf", ⟨2024, 3, 10⟩, false⟩] e' (0 + 1) 0 ∧
      e'.log = []
        ++ [Descargas.mensajeMover ⟨"a", ".pdf", ⟨2024, 3, 10⟩, true⟩
              (resolver (nombresEn [(([] : Ruta), ⟨"a", ".pdf", ⟨2024, 3, 10⟩, true⟩),
                  (([] : Ruta), ⟨"b", ".pdf", ⟨2024, 3, 10⟩, false⟩)]
                (Descargas.carpeta_destino ⟨"a", ".pdf", ⟨2024, 3, 10⟩, true⟩))
                ⟨"a", ".pdf", ⟨2024, 3, 10⟩, true⟩),
            Descargas.mensajeError ⟨"a", ".pdf", ⟨2024, 3, 10⟩, true⟩] ∧
      e'.contenido = [(([] : Ruta), ⟨"a", ".pdf", ⟨2024, 3, 10⟩, true⟩),
                      (([] : Ruta), ⟨"b", ".pdf", ⟨2024, 3, 10⟩, false⟩)]) :=
  ⟨C8_aislamiento_por_archivo.1 _ _ 0 0,
   C8_aislamiento_por_archivo.2 _ _ _ 0 0 (by decide) (by decide) (by decide) rfl⟩

/-- Claim C8, counterexample: in the CLI sweep the first file's I/O error
aborts the whole batch — the command stops with the error, zero files are
moved, and the perfectly healthy second file is still sitting at the base
folder. -/
theorem C8_contraejemplo :
    (Organizador.organizar false (Organizador.listar_raiz estadoC8) estadoC8 0 0).2.2.2
        = some "a.pdf" ∧
    (Organizador.organizar false (Organizador.listar_raiz estadoC8) estadoC8 0 0).2.2.1
        = 0 ∧
    (([] : Ruta), (⟨"b", ".pdf", ⟨2024, 3, 10⟩, false⟩ : Archivo))
      ∈ (Organizador.organizar false (Organizador.listar_raiz estadoC8) estadoC8 0 0).1.contenido := by
  refine ⟨by decide, by decide, by decide⟩

/-- Claim C10: for every file name and finite list of existing entries
the collision-suffix loop terminates within its fuel (its `Option` result
is `some`), returns the original name when that is free, otherwise
`stem_k ++ suffix` for the smallest counter `k ≥ 1` whose candidate is
not taken, and the returned name is never among the entries existing at
the time of the check. -/
theorem C10_terminacion_y_minimalidad :
    ∀ (nombres : List String) (a : Archivo),
      buscarLibre nombres a 1 (nombres.length + 2) a = some (resolver nombres a) ∧
      nombre (resolver nombres a) ∉ nombres ∧
      (nombre a ∉ nombres → resolver nombres a = a) ∧
      (nombre a ∈ nombres →
        ∃ k, 1 ≤ k ∧ resolver nombres a = conSufijoNum a k ∧
          nombre (conSufijoNum a k) ∉ nombres ∧
          ∀ i, 1 ≤ i → i < k → nombre (conSufijoNum a i) ∈ nombres) :=
  fun nombres a =>
    ⟨buscarLibre_encuentra nombres a, resolver_libre nombres a,
     resolver_sin_colision nombres a, resolver_con_colision nombres a⟩

/-- Witness for C10 at concrete entry lists. -/
theorem C10_terminacion_y_minimalidad_witness :
    nombre (resolver ["f.pdf", "f_1.pdf"] ⟨"f", ".pdf", ⟨2024, 3, 10⟩, false⟩)
        ∉ ["f.pdf", "f_1.pdf"] ∧
    resolver ["g.pdf"] ⟨"f", ".pdf", ⟨2024, 3, 10⟩, false⟩
        = ⟨"f", ".pdf", ⟨2024, 3, 10⟩, false⟩ ∧
    (∃ k, 1 ≤ k ∧
      resolver ["f.pdf", "f_1.pdf"] ⟨"f", ".pdf", ⟨2024, 3, 10⟩, false⟩
        = conSufijoNum ⟨"f", ".pdf", ⟨2024, 3, 10⟩, false⟩ k ∧
      nombre (conSufijoNum ⟨"f", ".pdf", ⟨2024, 3, 10⟩, false⟩ k) ∉ ["f.pdf", "f_1.pdf"] ∧
      ∀ i, 1 ≤ i → i < k →
        nombre (conSufijoNum ⟨"f", ".pdf", ⟨2024, 3, 10⟩, false⟩ i) ∈ ["f.pdf", "f_1.pdf"]) :=
  ⟨(C10_terminacion_y_minimalidad ["f.pdf", "f_1.pdf"] _).2.1,
   (C10_terminacion_y_minimalidad ["g.pdf"] _).2.2.1 (by decide),
   (C10_terminacion_y_minimalidad ["f.pdf", "f_1.pdf"] _).2.2.2 (by decide)⟩

/-- Claim C1: two same-named files (same pathlib stem, suffix and
modification date, hence the same destination directory) arriving one
after the other in the watched folder are both relocated into that
directory under distinct final names, and neither move lands on a name
that already existed in the destination at resolution time — no existing
file is overwritten. -/
theorem C1_colision_sin_sobrescritura
    (e₀ : Estado) (a b : Archivo)
    (hstem : b.stem = a.stem) (hsuf : b.sufijo = a.sufijo) (hfec : b.fecha = a.fecha)
    (hlog : nombre a ≠ Descargas.FICHERO_LOG)
    (htmp : minusculas a.sufijo ∉ EXTENSIONES_TEMPORALES)
    (hfa : a.falla = false) (hfb : b.falla = false) :
    ∃ a' b' : Archivo,
      (Descargas.carpeta_destino a, a')
        ∈ (Descargas.procesar_archivo_nuevo b (Descargas.crear b
            (Descargas.procesar_archivo_nuevo a (Descargas.crear a e₀)))).contenido ∧
      (Descargas.carpeta_destino a, b')
        ∈ (Descargas.procesar_archivo_nuevo b (Descargas.crear b
            (Descargas.procesar_archivo_nuevo a (Descargas.crear a e₀)))).contenido ∧
      nombre a' ≠ nombre b' ∧
      nombre a' ∉ nombresEn (Descargas.crear a e₀).contenido (Descargas.carpeta_destino a) ∧
      nombre b' ∉ nombresEn (Descargas.crear b
          (Descargas.procesar_archivo_nuevo a (Descargas.crear a e₀))).contenido
        (Descargas.carpeta_destino a) := by
  have hd := Descargas.carpeta_destino_ne_nil a
  have hnb : nombre b = nombre a := by simp [nombre, hstem, hsuf]
  have hdb : Descargas.carpeta_destino b = Descargas.carpeta_destino a := by
    simp [Descargas.carpeta_destino, hsuf, hfec]
  have hlogb : nombre b ≠ Descargas.FICHERO_LOG := by rw [hnb]; exact hlog
  have htmpb : minusculas b.sufijo ∉ EXTENSIONES_TEMPORALES := by rw [hsuf]; exact htmp
  set d := Descargas.carpeta_destino a with hdd
  set eA := Descargas.crear a e₀ with heA
  set a' := resolver (nombresEn eA.contenido d) a with ha'
  have he₁ : Descargas.procesar_archivo_nuevo a eA
      = { contenido :=
            eA.contenido.filter
                (fun p => decide (¬ (p.1 = ([] : Ruta) ∧ nombre p.2 = nombre a)))
              ++ [(d, a')],
          dirs := (mkdir d eA).dirs,
          log := eA.log ++ [Descargas.mensajeMover a a'] } := by
    rw [Descargas.procesar_archivo_nuevo, if_neg hlog, if_neg htmp,
      Descargas.mover_exito a eA (Descargas.existe_crear a e₀) hfa]
  set e₁ := Descargas.procesar_archivo_nuevo a eA with he₁d
  set eB := Descargas.crear b e₁ with heB
  set b' := resolver (nombresEn eB.contenido d) b with hb'
  have he₂ : Descargas.procesar_archivo_nuevo b eB
      = { contenido :=
            eB.contenido.filter
                (fun p => decide (¬ (p.1 = ([] : Ruta) ∧ nombre p.2 = nombre b)))
              ++ [(d, b')],
          dirs := (mkdir d eB).dirs,
          log := eB.log ++ [Descargas.mensajeMover b b'] } := by
    rw [Descargas.procesar_archivo_nuevo, if_neg hlogb, if_neg htmpb,
      Descargas.mover_exito b eB (Descargas.existe_crear b e₁) hfb, hdb]
  have hmemA₁ : (d, a') ∈ e₁.contenido := by
    rw [he₁]
    exact List.mem_append_right _ (by simp)
  have hmemAB : (d, a') ∈ eB.contenido := by
    rw [heB]
    exact List.mem_append_left _ hmemA₁
  have hnamesB : nombre a' ∈ nombresEn eB.contenido d := by
    rw [heB, Descargas.crear]
    show nombre a' ∈ nombresEn (e₁.contenido ++ [(([] : Ruta), b)]) d
    rw [nombresEn_append, nombresEn_raiz_singleton b d hd, List.append_nil, he₁]
    show nombre a' ∈ nombresEn (_ ++ [(d, a')]) d
    rw [nombresEn_append, nombresEn_dest_singleton]
    exact List.mem_append_right _ (by simp)
  refine ⟨a', b', ?_, ?_, ?_, ?_, ?_⟩
  · rw [he₂]
    apply List.mem_append_left
    rw [List.mem_filter]
    exact ⟨hmemAB, by simp [hd]⟩
  · rw [he₂]
    exact List.mem_append_right _ (by simp)
  · intro heq
    have := resolver_libre (nombresEn eB.contenido d) b
    rw [← hb', ← heq] at this
    exact this hnamesB
  · exact resolver_libre _ a
  · exact resolver_libre _ b

/-- Witness for C1: two files named `photo.jpg` arriving in sequence end
up as `photo.jpg` and `photo_1.jpg` (the spec's own scenario). -/
theorem C1_colision_sin_sobrescritura_witness :
    ∃ a' b' : Archivo,
      (Descargas.carpeta_destino ⟨"photo", ".jpg", ⟨2024, 3, 10⟩, false⟩, a')
        ∈ (Descargas.procesar_archivo_nuevo ⟨"photo", ".jpg", ⟨2024, 3, 10⟩, false⟩
            (Descargas.crear ⟨"photo", ".jpg", ⟨2024, 3, 10⟩, false⟩
              (Descargas.procesar_archivo_nuevo ⟨"photo", ".jpg", ⟨2024, 3, 10⟩, false⟩
                (Descargas.crear ⟨"photo", ".jpg", ⟨2024, 3, 10⟩, false⟩
                  ⟨[], [], []⟩)))).contenido ∧
      (Descargas.carpeta_destino ⟨"photo", ".jpg", ⟨2024, 3, 10⟩, false⟩, b')
        ∈ (Descargas.procesar_archivo_nuevo ⟨"photo", ".jpg", ⟨2024, 3, 10⟩, false⟩
            (Descargas.crear ⟨"photo", ".jpg", ⟨2024, 3, 10⟩, false⟩
              (Descargas.procesar_archivo_nuevo ⟨"photo", ".jpg", ⟨2024, 3, 10⟩, false⟩
                (Descargas.crear ⟨"photo", ".jpg", ⟨2024, 3, 10⟩, false⟩
                  ⟨[], [], []⟩)))).contenido ∧
      nombre a' ≠ nombre b' ∧
      nombre a' ∉ nombresEn (Descargas.crear ⟨"photo", ".jpg", ⟨2024, 3, 10⟩, false⟩
          ⟨[], [], []⟩).contenido
        (Descargas.carpeta_destino ⟨"photo", ".jpg", ⟨2024, 3, 10⟩, false⟩) ∧
      nombre b' ∉ nombresEn (Descargas.crear ⟨"photo", ".jpg", ⟨2024, 3, 10⟩, false⟩
          (Descargas.procesar_archivo_nuevo ⟨"photo", ".jpg", ⟨2024, 3, 10⟩, false⟩
            (Descargas.crear ⟨"photo", ".jpg", ⟨2024, 3, 10⟩, false⟩
              ⟨[], [], []⟩))).contenido
        (Descargas.carpeta_destino ⟨"photo", ".jpg", ⟨2024, 3, 10⟩, false⟩) :=
  C1_colision_sin_sobrescritura ⟨[], [], []⟩ _ _ rfl rfl rfl
    (by decide) (by decide) rfl rfl

theorem Descargas.existe_of_mem_raiz (e : Estado) (a : Archivo) (h : a ∈ raiz e) :
    Descargas.existe e (nombre a) = true := by
  unfold raiz at h
  rw [List.mem_map] at h
  obtain ⟨p, hp, hpa⟩ := h
  rw [List.mem_filter] at hp
  obtain ⟨hpc, hp1⟩ := hp
  rw [decide_eq_true_iff] at hp1
  rw [Descargas.existe, List.any_eq_true]
  exact ⟨p, hpc, by simp [hp1, hpa]⟩

theorem Descargas.existe_congr (e e' : Estado) (n : String)
    (h : e'.contenido = e.contenido) :
    Descargas.existe e' n = Descargas.existe e n := by
  simp [Descargas.existe, h]

theorem Descargas.raiz_mover_falla (a : Archivo) (e : Estado)
    (hex : Descargas.existe e (nombre a) = true) (hf : a.falla = true) :
    (Descargas.mover_y_organizar a e).1.contenido = e.contenido := by
  rw [Descargas.mover_falla a e hex hf]
  simp [Descargas.escribir_log, mkdir_contenido]

theorem raiz_congr (e' e : Estado) (h : e'.contenido = e.contenido) :
    raiz e' = raiz e := by
  unfold raiz
  rw [h]

theorem Descargas.raiz_mover_exito (a : Archivo) (e : Estado)
    (hex : Descargas.existe e (nombre a) = true) (hf : a.falla = false) :
    raiz (Descargas.mover_y_organizar a e).1
      = (raiz e).filter (fun x => decide (nombre x ≠ nombre a)) := by
  rw [Descargas.mover_exito a e hex hf]
  unfold raiz
  simp only [List.filter_append, List.map_append, List.filter_filter]
  have hsing :
      List.filter (fun p : Ruta × Archivo => decide (p.1 = ([] : Ruta)))
        [(Descargas.carpeta_destino a,
          resolver (nombresEn e.contenido (Descargas.carpeta_destino a)) a)] = [] := by
    simp [Descargas.carpeta_destino_ne_nil a]
  rw [hsing]
  simp only [List.map_nil, List.append_nil, List.filter_map, List.filter_filter]
  congr 1
  apply List.filter_congr
  intro p _
  by_cases h1 : p.1 = ([] : Ruta) <;> by_cases h2 : nombre p.2 = nombre a <;>
    simp [h1, h2, Function.comp]

theorem Descargas.filter_ne_nombre (S resto : List Archivo) (a : Archivo)
    (hnodup : ((S ++ a :: resto).map nombre).Nodup) :
    (S ++ a :: resto).filter (fun x => decide (nombre x ≠ nombre a)) = S ++ resto := by
  rw [List.map_append, List.map_cons, List.nodup_append] at hnodup
  obtain ⟨hS, hcons, hdisj⟩ := hnodup
  rw [List.nodup_cons] at hcons
  rw [List.filter_append, List.filter_cons]
  have ha : (decide (nombre a ≠ nombre a)) = false := by simp
  rw [ha]
  have hSf : S.filter (fun x => decide (nombre x ≠ nombre a)) = S := by
    rw [List.filter_eq_self]
    intro x hx
    have hnot := hdisj (List.mem_map_of_mem nombre hx)
    simp only [decide_eq_true_iff]
    intro hc
    exact hnot (List.mem_cons.mpr (Or.inl hc))
  have hRf : resto.filter (fun x => decide (nombre x ≠ nombre a)) = resto := by
    rw [List.filter_eq_self]
    intro x hx
    simp only [decide_eq_true_iff]
    intro hc
    exact hcons.1 (hc ▸ List.mem_map_of_mem nombre hx)
  rw [hSf, hRf]
  simp

theorem Descargas.barrido_raiz :
    ∀ (L S : List Archivo) (e : Estado) (enc mov : Nat),
      raiz e = S ++ L → ((S ++ L).map nombre).Nodup →
      raiz (Descargas.procesar_archivos_existentes L e enc mov).1
        = S ++ L.filter Descargas.escapa := by
  intro L
  induction L with
  | nil =>
    intro S e enc mov hraiz _
    simpa [Descargas.procesar_archivos_existentes] using hraiz
  | cons a resto ih =>
    intro S e enc mov hraiz hnodup
    have hassoc : raiz e = (S ++ [a]) ++ resto := by rw [hraiz]; simp
    have hnassoc : (((S ++ [a]) ++ resto).map nombre).Nodup := by
      have hswap : (S ++ [a]) ++ resto = S ++ a :: resto := by simp
      rw [hswap]
      exact hnodup
    by_cases hlog : nombre a = Descargas.FICHERO_LOG
    · rw [Descargas.procesar_archivos_existentes, if_pos hlog,
        ih (S ++ [a]) e enc mov hassoc hnassoc]
      have hesc : Descargas.escapa a = true := by simp [Descargas.escapa, hlog]
      rw [List.filter_cons, hesc]
      simp
    · by_cases htmp : minusculas a.sufijo ∈ EXTENSIONES_TEMPORALES
      · rw [Descargas.procesar_archivos_existentes, if_neg hlog, if_pos htmp,
          ih (S ++ [a]) e enc mov hassoc hnassoc]
        have hesc : Descargas.escapa a = true := by simp [Descargas.escapa, htmp]
        rw [List.filter_cons, hesc]
        simp
      · have hmem : a ∈ raiz e := by rw [hraiz]; simp
        have hex := Descargas.existe_of_mem_raiz e a hmem
        by_cases hfalla : a.falla = true
        · have hm := Descargas.mover_falla a e hex hfalla
          rw [Descargas.procesar_archivos_existentes, if_neg hlog, if_neg htmp, hm]
          show raiz (Descargas.procesar_archivos_existentes resto
              (Descargas.escribir_log (Descargas.mensajeError a)
                (Descargas.escribir_log
                  (Descargas.mensajeMover a
                    (resolver (nombresEn e.contenido (Descargas.carpeta_destino a)) a))
                  (mkdir (Descargas.carpeta_destino a) e))) (enc + 1) mov).1
            = S ++ List.filter Descargas.escapa (a :: resto)
          have hesc : Descargas.escapa a = true := by simp [Descargas.escapa, hfalla]
          have hcont :
              (Descargas.escribir_log (Descargas.mensajeError a)
                (Descargas.escribir_log
                  (Descargas.mensajeMover a
                    (resolver (nombresEn e.contenido (Descargas.carpeta_destino a)) a))
                  (mkdir (Descargas.carpeta_destino a) e))).contenido = e.contenido := by
            simp [Descargas.escribir_log, mkdir_contenido]
          have hraiz' := (raiz_congr _ e hcont).trans hassoc
          rw [ih (S ++ [a]) _ (enc + 1) mov hraiz' hnassoc]
          rw [List.filter_cons, hesc]
          simp
        · have hf' : a.falla = false := by simpa using hfalla
          have hm := Descargas.mover_exito a e hex hf'
          rw [Descargas.procesar_archivos_existentes, if_neg hlog, if_neg htmp]
          simp only [hm]
          have hesc : Descargas.escapa a = false := by
            simp [Descargas.escapa, hlog, htmp, hf']
          have hraiz' : raiz (Descargas.mover_y_organizar a e).1 = S ++ resto := by
            rw [Descargas.raiz_mover_exito a e hex hf', hraiz]
            exact Descargas.filter_ne_nombre S resto a hnodup
          rw [hm] at hraiz'
          simp only at hraiz'
          have hnodup' : ((S ++ resto).map nombre).Nodup := by
            have hsub : List.Sublist (S ++ resto) (S ++ a :: resto) :=
              List.Sublist.append_left (List.sublist_cons_self a resto) S
            exact hnodup.sublist (List.Sublist.map nombre hsub)
          rw [ih S _ (enc + 1) (mov + 1) hraiz' hnodup']
          rw [List.filter_cons, hesc]
          simp

theorem Descargas.barrido_escapa_sin_movimientos :
    ∀ (L : List Archivo) (e : Estado) (enc mov : Nat),
      (∀ x ∈ L, Descargas.escapa x = true) →
      (∀ x ∈ L, Descargas.existe e (nombre x) = true) →
      (Descargas.procesar_archivos_existentes L e enc mov).2.2 = mov := by
  intro L
  induction L with
  | nil => intro e enc mov _ _; rfl
  | cons a resto ih =>
    intro e enc mov hesc hex
    by_cases hlog : nombre a = Descargas.FICHERO_LOG
    · rw [Descargas.procesar_archivos_existentes, if_pos hlog]
      exact ih e enc mov (fun x hx => hesc x (List.mem_cons_of_mem _ hx))
        (fun x hx => hex x (List.mem_cons_of_mem _ hx))
    · by_cases htmp : minusculas a.sufijo ∈ EXTENSIONES_TEMPORALES
      · rw [Descargas.procesar_archivos_existentes, if_neg hlog, if_pos htmp]
        exact ih e enc mov (fun x hx => hesc x (List.mem_cons_of_mem _ hx))
          (fun x hx => hex x (List.mem_cons_of_mem _ hx))
      · have hfalla : a.falla = true := by
          have ha := hesc a (List.mem_cons_self a resto)
          simpa [Descargas.escapa, hlog, htmp] using ha
        have hexa := hex a (List.mem_cons_self a resto)
        have hm := Descargas.mover_falla a e hexa hfalla
        rw [Descargas.procesar_archivos_existentes, if_neg hlog, if_neg htmp]
        simp only [hm]
        apply ih
        · exact fun x hx => hesc x (List.mem_cons_of_mem _ hx)
        · intro x hx
          have hcont :
              (Descargas.escribir_log (Descargas.mensajeError a)
                (Descargas.escribir_log
                  (Descargas.mensajeMover a
                    (resolver (nombresEn e.contenido (Descargas.carpeta_destino a)) a))
                  (mkdir (Descargas.carpeta_destino a) e))).contenido = e.contenido := by
            simp [Descargas.escribir_log, mkdir_contenido]
          rw [Descargas.existe_congr e _ (nombre x) hcont]
          exact hex x (List.mem_cons_of_mem _ hx)

/-- Claim C5 (amended): the watch-mode catch-up sweep is idempotent —
after one sweep over the files at the base folder (whose names, being
directory entries, are pairwise distinct), a second sweep over what
remains at the base folder moves zero files: everything still there is
the log file, a temporary extension, or a file whose move keeps raising.
The recursive CLI sweep is NOT idempotent (`C5_contraejemplo`): re-running
it renames files already sitting at their computed destination. -/
theorem C5_idempotencia_barrido (e : Estado)
    (hnodup : ((raiz e).map nombre).Nodup) :
    (Descargas.procesar_archivos_existentes
        (raiz (Descargas.procesar_archivos_existentes (raiz e) e 0 0).1)
        (Descargas.procesar_archivos_existentes (raiz e) e 0 0).1 0 0).2.2 = 0 := by
  have h1 : raiz (Descargas.procesar_archivos_existentes (raiz e) e 0 0).1
      = (raiz e).filter Descargas.escapa := by
    have hb := Descargas.barrido_raiz (raiz e) [] e 0 0 (by simp) (by simpa using hnodup)
    simpa using hb
  apply Descargas.barrido_escapa_sin_movimientos
  · intro x hx
    rw [h1] at hx
    exact (List.mem_filter.mp hx).2
  · intro x hx
    exact Descargas.existe_of_mem_raiz _ x hx

/-- Witness for C5 at `estadoC5w`. -/
theorem C5_idempotencia_barrido_witness :
    (Descargas.procesar_archivos_existentes
        (raiz (Descargas.procesar_archivos_existentes (raiz estadoC5w) estadoC5w 0 0).1)
        (Descargas.procesar_archivos_existentes (raiz estadoC5w) estadoC5w 0 0).1 0 0).2.2
      = 0 :=
  C5_idempotencia_barrido estadoC5w (by decide)

/-- Claim C5, counterexample: the recursive CLI sweep over the
already-organized tree `estadoC5` is not idempotent — the file is at its
computed destination, yet the second run reports one move and renames it
to `f_1.pdf` (the collision check `destino.exists()` sees the file
itself). -/
theorem C5_contraejemplo :
    Organizador.destino_para_archivo ⟨"f", ".pdf", ⟨2024, 3, 10⟩, false⟩
        = ["documentos", "2024", "marzo", "1-15"] ∧
    (Organizador.organizar false (Organizador.listar_recursivo estadoC5) estadoC5 0 0).2.2.1
        = 1 ∧
    (Organizador.organizar false (Organizador.listar_recursivo estadoC5) estadoC5 0 0).1.contenido
        = [(["documentos", "2024", "marzo", "1-15"],
            ⟨"f_1", ".pdf", ⟨2024, 3, 10⟩, false⟩)] := by
  refine ⟨by decide, by decide, by decide⟩
